import Mathlib

/-!
Verification development for the `ts-generator-builder` repository: a shallow
embedding of its usage tracker, import registry, section assembler, top-level
generator and control-flow builders, together with theorems settling the
frozen behavioural claims about them.

The embedding mirrors the TypeScript sources.  JavaScript regular-expression
scans are modelled as explicit character-level scanners with the same match
semantics; the external TypeScript printer (an out-of-scope collaborator that
turns AST nodes into text) is modelled by deterministic rendering functions,
and an AST node is represented by the text the printer emits for it plus its
list of synthetic leading comments.
-/

set_option maxRecDepth 4000

/-! ### Character classes of the JavaScript regular expressions

`jsWordChar` is the class `[a-zA-Z0-9_]`, `jsIdentStart` is `[a-zA-Z_]`,
`jsSpace` is `\s` restricted to its ASCII members, and `isQuote` is the
class `["'\x60]` used by the string-literal scanner. -/

def jsWordChar (c : Char) : Bool :=
  c.isAlpha || c.isDigit || c = '_'

def jsIdentStart (c : Char) : Bool :=
  c.isAlpha || c = '_'

def jsSpace (c : Char) : Bool :=
  c = ' ' || c = '\t' || c = '\n' || c = '\r' || c = '\x0b' || c = '\x0c'

def isQuote (c : Char) : Bool :=
  c = '"' || c = Char.ofNat 39 || c = Char.ofNat 96

/-! ### Identifier tokenization

`identToks` lists every match of `\b([a-zA-Z_][a-zA-Z0-9_]*)` in a character
list, each paired with the remainder of the input after the match; the
remainder lets callers test what follows a token (the function-call pattern
`\b([a-zA-Z_][a-zA-Z0-9_]*)\s*\(` needs the text after the identifier).
The boolean state records whether the previous character was a word
character, i.e. whether the current position sits at a `\b` boundary. -/

def identToksAux (kw : Bool) : List Char → List (String × List Char)
  | [] => []
  | c :: cs =>
    if !kw && jsIdentStart c then
      (String.mk (c :: cs.takeWhile jsWordChar), cs.dropWhile jsWordChar)
        :: identToksAux true cs
    else
      identToksAux (jsWordChar c) cs

def identToks (l : List Char) : List (String × List Char) :=
  identToksAux false l

/-- Does the remainder after a token match `\s*\(` (a function-call shape)? -/
def calleeRest (rest : List Char) : Bool :=
  match rest.dropWhile jsSpace with
  | '(' :: _ => true
  | _ => false

/-- Does a token start with `[A-Z]` (the capitalized type-reference shape)? -/
def headIsUpper (s : String) : Bool :=
  match s.data with
  | c :: _ => c.isUpper
  | [] => false

/-! ### String-literal extraction

Models `/["'\x60]([^"'\x60]*?)["'\x60]/g`: every run of non-quote characters
delimited by two quote characters (of any of the three kinds), scanned left
to right, resuming after each closing quote; an unterminated literal is not
a match.  The `Option` state holds the reversed content collected so far
when inside a literal. -/

def extractLitAux : Option (List Char) → List Char → List (List Char)
  | none, [] => []
  | none, c :: cs =>
    if isQuote c then extractLitAux (some []) cs else extractLitAux none cs
  | some _, [] => []
  | some acc, c :: cs =>
    if isQuote c then acc.reverse :: extractLitAux none cs
    else extractLitAux (some (c :: acc)) cs

def extractLiteralContents (l : List Char) : List (List Char) :=
  extractLitAux none l

/-! ### The `: Identifier` annotation pattern

Models `/:\s*([A-Za-z_][A-Za-z0-9_]*)/g` as a character-level state machine:
`idle` searches for a colon, `afterColon` consumes `\s*` (a further colon
restarts the spaces), `inIdent` collects the captured identifier (stored
reversed). -/

inductive ColonState
  | idle
  | afterColon
  | inIdent (acc : List Char)

def scanColonAux : ColonState → List Char → List String
  | .idle, [] => []
  | .idle, c :: cs =>
    if c = ':' then scanColonAux .afterColon cs else scanColonAux .idle cs
  | .afterColon, [] => []
  | .afterColon, c :: cs =>
    if jsSpace c then scanColonAux .afterColon cs
    else if jsIdentStart c then scanColonAux (.inIdent [c]) cs
    else if c = ':' then scanColonAux .afterColon cs
    else scanColonAux .idle cs
  | .inIdent acc, [] => [String.mk acc.reverse]
  | .inIdent acc, c :: cs =>
    if jsWordChar c then scanColonAux (.inIdent (c :: acc)) cs
    else
      String.mk acc.reverse ::
        (if c = ':' then scanColonAux .afterColon cs else scanColonAux .idle cs)

def scanColonPattern (l : List Char) : List String :=
  scanColonAux .idle l

/-! ### The keyword patterns

Models `/<kw>\s+([A-Za-z_][A-Za-z0-9_]*)/g` for the keywords `extends`,
`implements`, `typeof` and `keyof` (the source patterns have no `\b`, so the
keyword is found as a plain substring).  On a successful match the scan
resumes after the captured identifier; the `Nat` argument counts characters
still to skip before a new match may start, which keeps the recursion
structural. -/

def scanKwAux (kw : List Char) : Nat → List Char → List String
  | Nat.succ k, _ :: cs => scanKwAux kw k cs
  | _, [] => []
  | 0, c :: cs =>
    if kw.isPrefixOf (c :: cs) then
      let tail := (c :: cs).drop kw.length
      let sp := tail.takeWhile jsSpace
      if sp.isEmpty then scanKwAux kw 0 cs
      else
        match tail.dropWhile jsSpace with
        | d :: ds =>
          if jsIdentStart d then
            let tok := d :: ds.takeWhile jsWordChar
            String.mk tok :: scanKwAux kw (kw.length + sp.length + tok.length - 1) cs
          else scanKwAux kw 0 cs
        | [] => scanKwAux kw 0 cs
    else scanKwAux kw 0 cs

def scanKwPattern (kw : String) (l : List Char) : List String :=
  scanKwAux kw.data 0 l

/-! ### TypeUsageTracker

Embedding of `TypeUsageTracker` (utils/type-usage-tracker): the mutable
`Set<string>` of used identifiers is a duplicate-free list in insertion
order.  The debug-only `instanceId` field and console logging have no
behavioural role and are omitted. -/

structure TypeUsageTracker where
  usedIdentifiers : List String
deriving DecidableEq, Repr

def TypeUsageTracker.empty : TypeUsageTracker := ⟨[]⟩

def TypeUsageTracker.add (t : TypeUsageTracker) (s : String) : TypeUsageTracker :=
  if s ∈ t.usedIdentifiers then t else ⟨t.usedIdentifiers ++ [s]⟩

def TypeUsageTracker.isUsed (t : TypeUsageTracker) (identifier : String) : Bool :=
  identifier ∈ t.usedIdentifiers

/-- The fixed stoplist of `scanStringContent`. -/
def keywordStoplist : List String :=
  ["const", "let", "var", "function", "return", "if", "else", "for", "while",
   "do", "switch", "case", "break", "continue", "true", "false", "null",
   "undefined"]

/-- `TypeUsageTracker.scanStringContent`: within string-literal text, first
add every callee of a function-call shape `identifier(`, then add every
identifier token that is not in the keyword stoplist. -/
def TypeUsageTracker.scanStringContent (t : TypeUsageTracker) (content : String) :
    TypeUsageTracker :=
  let toks := identToks content.data
  let t1 := toks.foldl (fun a p => if calleeRest p.2 then a.add p.1 else a) t
  toks.foldl (fun a p => if p.1 ∈ keywordStoplist then a else a.add p.1) t1

/-- `TypeUsageTracker.scanString`: extract each string-literal content and
scan it with the string-literal-content rules, then over the whole fragment
add every capitalized identifier, every `: Identifier` annotation match and
every `extends` / `implements` / `typeof` / `keyof` match. -/
def TypeUsageTracker.scanString (t : TypeUsageTracker) (code : String) :
    TypeUsageTracker :=
  let lits := extractLiteralContents code.data
  let t1 := lits.foldl
    (fun a l => if l.isEmpty then a else a.scanStringContent (String.mk l)) t
  let t2 := (identToks code.data).foldl
    (fun a p => if headIsUpper p.1 then a.add p.1 else a) t1
  let t3 := (scanColonPattern code.data).foldl TypeUsageTracker.add t2
  let t4 := (scanKwPattern "extends" code.data).foldl TypeUsageTracker.add t3
  let t5 := (scanKwPattern "implements" code.data).foldl TypeUsageTracker.add t4
  let t6 := (scanKwPattern "typeof" code.data).foldl TypeUsageTracker.add t5
  (scanKwPattern "keyof" code.data).foldl TypeUsageTracker.add t6

def TypeUsageTracker.getUsedIdentifiers (t : TypeUsageTracker) : List String :=
  t.usedIdentifiers

/-! ### JavaScript string utilities used by the section assembler

`jsTrim` models `String.prototype.trim` (strip leading and trailing
whitespace) and `joinSep` models `Array.prototype.join`. -/

def jsTrim (s : String) : String :=
  String.mk (((s.data.dropWhile jsSpace).reverse.dropWhile jsSpace).reverse)

def joinSep (sep : String) : List String → String
  | [] => ""
  | [x] => x
  | x :: y :: t => x ++ sep ++ joinSep sep (y :: t)

/-! ### Substring predicate

`strContains hay needle` decides whether `needle` occurs contiguously in
`hay`; it phrases "an import (or a name) is included in rendered output". -/

def subOf (needle : List Char) : List Char → Bool
  | [] => needle.isEmpty
  | c :: t => needle.isPrefixOf (c :: t) || subOf needle t

def strContains (hay needle : String) : Bool :=
  subOf needle.data hay.data

/-! ### ImportsBuilder

Embedding of `ImportsBuilderImpl` (builders/imports-builder).  A
named-import definition keeps the requested `name`, the optional alias
(source field `alias`, here `aliasName`), and the mutable `used` flag; default and
namespace imports keep a name and a `used` flag. -/

structure ImportOptions where
  includeUnused : Bool
  typeOnly : Bool
deriving DecidableEq, Repr

structure NamedImportDefinition where
  name : String
  aliasName : Option String
  used : Bool
deriving DecidableEq, Repr

structure ImportFlag where
  name : String
  used : Bool
deriving DecidableEq, Repr

structure ImportsBuilderImpl where
  moduleSpecifier : String
  namedImports : List NamedImportDefinition
  defaultImport : Option ImportFlag
  namespaceImport : Option ImportFlag
  options : ImportOptions
deriving DecidableEq, Repr

/-- The constructor: options default to `includeUnused := false`,
`typeOnly := false` when not supplied. -/
def ImportsBuilderImpl.new (moduleSpecifier : String)
    (options : ImportOptions := ⟨false, false⟩) : ImportsBuilderImpl :=
  ⟨moduleSpecifier, [], none, none, options⟩

/-- `named(name, alias?)`: push a new unused definition unless a definition
with the same `(name, alias)` pair already exists. -/
def ImportsBuilderImpl.named (b : ImportsBuilderImpl) (name : String)
    (aliasName : Option String := none) : ImportsBuilderImpl :=
  match b.namedImports.find? (fun imp => imp.name = name && imp.aliasName = aliasName) with
  | some _ => b
  | none => { b with namedImports := b.namedImports ++ [⟨name, aliasName, false⟩] }

def ImportsBuilderImpl.namedMultiple (b : ImportsBuilderImpl) (names : List String) :
    ImportsBuilderImpl :=
  names.foldl (fun acc n => acc.named n) b

/-- `default(name)`: set (always overwriting) the default import, unused. -/
def ImportsBuilderImpl.setDefault (b : ImportsBuilderImpl) (name : String) :
    ImportsBuilderImpl :=
  { b with defaultImport := some ⟨name, false⟩ }

/-- `namespace(name)`: set (always overwriting) the namespace import, unused. -/
def ImportsBuilderImpl.setNamespace (b : ImportsBuilderImpl) (name : String) :
    ImportsBuilderImpl :=
  { b with namespaceImport := some ⟨name, false⟩ }

/-- `markUsed(name)`: find the first named import whose `name` field equals
the argument (the alias is ignored by the lookup) and set its flag; when no
definition matches, nothing happens. -/
def markUsedNamed : List NamedImportDefinition → String → List NamedImportDefinition
  | [], _ => []
  | imp :: rest, nm =>
    if imp.name = nm then { imp with used := true } :: rest
    else imp :: markUsedNamed rest nm

def ImportsBuilderImpl.markUsed (b : ImportsBuilderImpl) (name : String) :
    ImportsBuilderImpl :=
  { b with namedImports := markUsedNamed b.namedImports name }

def ImportsBuilderImpl.markDefaultUsed (b : ImportsBuilderImpl) : ImportsBuilderImpl :=
  { b with defaultImport := b.defaultImport.map (fun d => { d with used := true }) }

def ImportsBuilderImpl.markNamespaceUsed (b : ImportsBuilderImpl) : ImportsBuilderImpl :=
  { b with namespaceImport := b.namespaceImport.map (fun d => { d with used := true }) }

/-- `markUsedFromTracker(tracker)`: set the `used` flag of every binding
whose `name` field the tracker reports as used (for a named import this is
the requested source name, not the alias); flags are only ever set, never
cleared. -/
def ImportsBuilderImpl.markUsedFromTracker (b : ImportsBuilderImpl)
    (usageTracker : TypeUsageTracker) : ImportsBuilderImpl :=
  { b with
    namedImports := b.namedImports.map
      (fun imp => if usageTracker.isUsed imp.name then { imp with used := true } else imp),
    defaultImport := b.defaultImport.map
      (fun d => if usageTracker.isUsed d.name then { d with used := true } else d),
    namespaceImport := b.namespaceImport.map
      (fun d => if usageTracker.isUsed d.name then { d with used := true } else d) }

/-! Rendering.  `ImportClause`, `ImportSpecifier` and `NamedBindings` model
the TypeScript factory nodes built by `createImportClause`;
`printImportDeclaration` models the external TypeScript printer's output for
an import declaration. -/

structure ImportSpecifier where
  propertyName : Option String
  name : String
deriving DecidableEq, Repr

inductive NamedBindings
  | namespaceBinding (name : String)
  | namedBindings (elements : List ImportSpecifier)
deriving DecidableEq, Repr

structure ImportClause where
  isTypeOnly : Bool
  name : Option String
  namedBindings : Option NamedBindings
deriving DecidableEq, Repr

/-- `createImportClause`: the clause `name` is the default-import name; the
named bindings slot holds the namespace import when one is given, otherwise
the named-import specifiers (`alias` present ⇒ `sourceName as alias`); when
neither a name nor bindings exist there is no clause. -/
def ImportsBuilderImpl.createImportClause (b : ImportsBuilderImpl)
    (defaultImportName : Option String) (namespaceImportName : Option String)
    (namedImports : List NamedImportDefinition) : Option ImportClause :=
  let name := defaultImportName
  let namedB : Option NamedBindings :=
    match namespaceImportName with
    | some ns => some (.namespaceBinding ns)
    | none =>
      if namedImports.isEmpty then none
      else some (.namedBindings (namedImports.map (fun imp =>
        ⟨imp.aliasName.map (fun _ => imp.name), (imp.aliasName).getD imp.name⟩)))
  match name, namedB with
  | none, none => none
  | _, _ => some ⟨b.options.typeOnly, name, namedB⟩

def renderImportSpecifier (sp : ImportSpecifier) : String :=
  match sp.propertyName with
  | some p => p ++ " as " ++ sp.name
  | none => sp.name

def renderNamedBindings : NamedBindings → String
  | .namespaceBinding n => "* as " ++ n
  | .namedBindings els =>
      "\x7b " ++ joinSep ", " (els.map renderImportSpecifier) ++ " \x7d"

/-- Model of the external TypeScript printer on an import declaration:
the clause is printed as `import [type] [default][, ]bindings from "mod";`,
a clause-less declaration as the side-effect form `import "mod";`. -/
def printImportDeclaration (clause : Option ImportClause) (moduleSpecifier : String) :
    String :=
  match clause with
  | none => "import \"" ++ moduleSpecifier ++ "\";"
  | some c =>
    let parts :=
      (match c.name with | some n => [n] | none => []) ++
      (match c.namedBindings with | some nb => [renderNamedBindings nb] | none => [])
    "import " ++ (if c.isTypeOnly then "type " else "") ++ joinSep ", " parts
      ++ " from \"" ++ moduleSpecifier ++ "\";"

/-- The named imports surviving the usage filter (all of them when
`includeUnused` is set). -/
def ImportsBuilderImpl.filteredNamedImports (b : ImportsBuilderImpl) :
    List NamedImportDefinition :=
  if b.options.includeUnused then b.namedImports
  else b.namedImports.filter (fun imp => imp.used)

def ImportsBuilderImpl.includeDefault (b : ImportsBuilderImpl) : Bool :=
  match b.defaultImport with
  | none => false
  | some d => b.options.includeUnused || d.used

def ImportsBuilderImpl.includeNamespace (b : ImportsBuilderImpl) : Bool :=
  match b.namespaceImport with
  | none => false
  | some d => b.options.includeUnused || d.used

/-- `generate()`: empty text when nothing survives the filter, otherwise the
printed import declaration for the surviving bindings. -/
def ImportsBuilderImpl.generate (b : ImportsBuilderImpl) : String :=
  let filtered := b.filteredNamedImports
  if filtered.isEmpty && !b.includeDefault && !b.includeNamespace then ""
  else
    let clause := b.createImportClause
      (if b.includeDefault then b.defaultImport.map (fun d => d.name) else none)
      (if b.includeNamespace then b.namespaceImport.map (fun d => d.name) else none)
      filtered
    printImportDeclaration clause b.moduleSpecifier

/-! ### Code items and sections

Embedding of `SectionImpl` (section implementation with automatic usage
detection).  An AST node is modelled by the text the external printer emits
for it with comments removed (`text`) plus its synthetic leading comments
(`comments`), each stored in rendered form; `addSyntheticLeadingComment`
appends to the comment list, and the comment-preserving printer emits the
comments before the text. -/

structure AstNode where
  text : String
  comments : List String
deriving DecidableEq, Repr

/-- Rendering of a node by the comment-preserving printer. -/
def renderAstNodeWithComments (a : AstNode) : String :=
  String.join a.comments ++ a.text

inductive ItemType
  | interfaceItem
  | typeItem
  | enumItem
  | objectItem
  | importItem
  | ifItem
  | switchItem
  | forItem
  | whileItem
  | doWhileItem
deriving DecidableEq, Repr

inductive NodeOrString
  | str (s : String)
  | node (n : AstNode)
deriving DecidableEq, Repr

structure CodeItem where
  type : ItemType
  name : String
  node : NodeOrString
  importsBuilder : Option ImportsBuilderImpl
deriving DecidableEq, Repr

def isImportItem (it : CodeItem) : Bool :=
  match it.type with
  | .importItem => true
  | _ => false

/-- A section description is a string or an array of lines. -/
inductive StrOrList
  | one (s : String)
  | many (l : List String)
deriving DecidableEq, Repr

structure SectionOptions where
  description : Option StrOrList
  metadata : Option (List (String × Option String))
  sortItems : Bool
  order : Option Nat
deriving DecidableEq, Repr

def SectionOptions.default : SectionOptions := ⟨none, none, false, none⟩

structure SectionImpl where
  name : String
  options : SectionOptions
  items : List CodeItem
deriving DecidableEq, Repr

/-- `addImports`: stores the configured builder with a placeholder node; the
final text is generated later, after the usage scan. -/
def SectionImpl.addImports (s : SectionImpl) (moduleSpecifier : String)
    (b : ImportsBuilderImpl) : SectionImpl :=
  { s with items := s.items ++ [⟨.importItem, moduleSpecifier, .str "", some b⟩] }

/-- Any non-import add: the item's content is fixed at add time. -/
def SectionImpl.addItem (s : SectionImpl) (t : ItemType) (name : String)
    (node : NodeOrString) : SectionImpl :=
  { s with items := s.items ++ [⟨t, name, node, none⟩] }

def SectionImpl.nonImportItems (s : SectionImpl) : List CodeItem :=
  s.items.filter (fun it => !isImportItem it)

def SectionImpl.importItems (s : SectionImpl) : List CodeItem :=
  s.items.filter (fun it => isImportItem it)

/-- Stable insertion sort by display name, modelling the stable
`Array.prototype.sort` on `localeCompare` (compared here byte-wise). -/
def insertByName (x : CodeItem) : List CodeItem → List CodeItem
  | [] => [x]
  | y :: ys => if decide (x.name ≤ y.name) then x :: y :: ys else y :: insertByName x ys

def sortByName : List CodeItem → List CodeItem
  | [] => []
  | x :: xs => insertByName x (sortByName xs)

def SectionImpl.sortedNonImportItems (s : SectionImpl) : List CodeItem :=
  if s.options.sortItems then sortByName s.nonImportItems else s.nonImportItems

/-- Rendering one non-import item during the scan phase: a string item is
used as-is, an AST item is printed with comments removed. -/
def renderItemCode (it : CodeItem) : String :=
  match it.node with
  | .str v => v
  | .node a => a.text

/-- The shared usage tracker after the scan phase: one fresh tracker per
`generate()` call, fed the rendered text of every non-import item in
partitioned order. -/
def SectionImpl.trackerOf (s : SectionImpl) : TypeUsageTracker :=
  s.sortedNonImportItems.foldl
    (fun t it => t.scanString (renderItemCode it)) TypeUsageTracker.empty

/-- Import-item processing: reconcile the stored builder against the
tracker, generate its final text, and store that text (or the empty marker
when the trimmed text is empty). -/
def processImportItem (t : TypeUsageTracker) (it : CodeItem) : CodeItem :=
  match it.importsBuilder with
  | none => it
  | some b =>
    let b' := b.markUsedFromTracker t
    let generatedCode := b'.generate
    { it with
      node := .str (if (jsTrim generatedCode).isEmpty then "" else generatedCode),
      importsBuilder := some b' }

def SectionImpl.processedImportItems (s : SectionImpl) : List CodeItem :=
  s.importItems.map (processImportItem s.trackerOf)

def SectionImpl.filteredImportItems (s : SectionImpl) : List CodeItem :=
  s.processedImportItems.filter (fun it =>
    match it.node with
    | .str c => !(jsTrim c).isEmpty
    | .node _ => false)

def SectionImpl.importStrings (s : SectionImpl) : List String :=
  s.filteredImportItems.filterMap (fun it =>
    match it.node with
    | .str c => some c
    | .node _ => none)

def SectionImpl.stringNodeCodes (s : SectionImpl) : List String :=
  s.sortedNonImportItems.filterMap (fun it =>
    match it.node with
    | .str v => some v
    | .node _ => none)

def SectionImpl.astNodesOf (s : SectionImpl) : List AstNode :=
  s.sortedNonImportItems.filterMap (fun it =>
    match it.node with
    | .str _ => none
    | .node a => some a)

def descriptionLines : Option StrOrList → List String
  | none => []
  | some (.one d) => [d]
  | some (.many l) => l

/-- The `* name\ndesc… ` text handed to `addSyntheticLeadingComment` for the
section's JSDoc comment (`createJSDocComment([name, …description]).comment`
wrapped in `* … `; metadata becomes tags and does not reach the comment
string). -/
def SectionImpl.sectionCommentText (s : SectionImpl) : String :=
  "* " ++ joinSep "\n" (s.name :: descriptionLines s.options.description) ++ " "

/-- The string-only path's hand-built header comment. -/
def SectionImpl.headerCommentString (s : SectionImpl) : String :=
  let base := "/**\n * " ++ s.name ++ "\n"
  let base := base ++ String.join ((descriptionLines s.options.description).map
    (fun line => " * " ++ line ++ "\n"))
  let base :=
    match s.options.metadata with
    | none => base
    | some entries =>
      let base :=
        if (descriptionLines s.options.description).isEmpty then base else base ++ " *\n"
      base ++ String.join (entries.filterMap (fun e =>
        match e.2 with
        | some v => some (" * @" ++ e.1 ++ " " ++ v ++ "\n")
        | none => none))
  base ++ " */\n"

/-- The string-only output path: header comment, surviving import strings
joined by newlines, a blank-line separator, string items joined by blank
lines, trailing end marker. -/
def SectionImpl.stringPathOutput (s : SectionImpl) : String :=
  let importStrs := s.importStrings
  let strNodes := s.stringNodeCodes
  let result := s.headerCommentString
  let result :=
    if importStrs.isEmpty then result
    else result ++ joinSep "\n" importStrs ++ (if strNodes.isEmpty then "" else "\n\n")
  let result := if strNodes.isEmpty then result else result ++ joinSep "\n\n" strNodes
  result ++ "\n// End " ++ s.name

/-- The mixed/AST output path: the section JSDoc comment is appended to the
first AST node's synthetic comments, an end-marker comment node is appended,
and imports, string items and printed AST code are concatenated. -/
def SectionImpl.astPathOutput (s : SectionImpl) : String :=
  let endNode : AstNode := ⟨"", ["// End " ++ s.name ++ "\n"]⟩
  let astsPlus := s.astNodesOf ++ [endNode]
  let astsPlus :=
    match astsPlus with
    | a :: rest =>
      ({ a with comments := a.comments ++ ["/*" ++ s.sectionCommentText ++ "*/\n"] }) :: rest
    | [] => []
  let astCode := joinSep "\n\n" (astsPlus.map renderAstNodeWithComments)
  let importStrs := s.importStrings
  let strNodes := s.stringNodeCodes
  let r := if importStrs.isEmpty then "" else joinSep "\n" importStrs
  let r :=
    if strNodes.isEmpty then r
    else (if r.isEmpty then r else r ++ "\n\n") ++ joinSep "\n\n" strNodes
  if astCode.isEmpty then r
  else (if r.isEmpty then r else r ++ "\n\n") ++ astCode

/-- Whether `generate()` takes the string-only branch. -/
def SectionImpl.stringOnlyPath (s : SectionImpl) : Bool :=
  s.astNodesOf.isEmpty && (!s.stringNodeCodes.isEmpty || !s.importStrings.isEmpty)

/-! State mutation performed by `generate()`: every import item's node and
builder are updated, and on the AST path the section comment is appended to
the synthetic comments of the first AST node in partitioned (sorted) order.
Items are identified by their position in `items`. -/

def insertByNameIdx (x : Nat × CodeItem) : List (Nat × CodeItem) → List (Nat × CodeItem)
  | [] => [x]
  | y :: ys =>
    if decide (x.2.name ≤ y.2.name) then x :: y :: ys else y :: insertByNameIdx x ys

def sortByNameIdx : List (Nat × CodeItem) → List (Nat × CodeItem)
  | [] => []
  | x :: xs => insertByNameIdx x (sortByNameIdx xs)

def SectionImpl.firstAstIdx (s : SectionImpl) : Option Nat :=
  let indexed := s.items.enum.filter (fun p => !isImportItem p.2)
  let indexed := if s.options.sortItems then sortByNameIdx indexed else indexed
  (indexed.filter (fun p =>
    match p.2.node with
    | .node _ => true
    | .str _ => false)).head?.map (fun p => p.1)

def addSectionCommentToItem (s : SectionImpl) (it : CodeItem) : CodeItem :=
  match it.node with
  | .node a =>
    let a2 : AstNode :=
      { a with comments := a.comments ++ ["/*" ++ s.sectionCommentText ++ "*/\n"] }
    { it with node := NodeOrString.node a2 }
  | .str _ => it

def SectionImpl.afterGenerate (s : SectionImpl) : SectionImpl :=
  let t := s.trackerOf
  let items1 := s.items.map (fun it => if isImportItem it then processImportItem t it else it)
  let items2 :=
    if s.stringOnlyPath then items1
    else
      match s.firstAstIdx with
      | some i => items1.enum.map (fun p =>
          if p.1 = i then addSectionCommentToItem s p.2 else p.2)
      | none => items1
  { s with items := items2 }

/-- `SectionImpl.generate`: scan every non-import item into one fresh
tracker, then reconcile and render every import item, then concatenate.
The returned section is the mutated post-call state of the object. -/
def SectionImpl.generate (s : SectionImpl) : String × SectionImpl :=
  (if s.stringOnlyPath then s.stringPathOutput else s.astPathOutput, s.afterGenerate)

/-! ### Generator

Embedding of `GeneratorImpl`.  Global metadata is a key/value list; the
constructor always seeds it (generator name and timestamp), so it is carried
as given.  Sections are sorted stably by their `order` option (missing
orders sort last); the parse/re-print round trip of the combined text
through the external TypeScript printer is modelled as the identity, and the
document header comment (whose printed text is independent of the metadata
values) is prepended when metadata exists and the combined text is
nonempty. -/

structure GeneratorImpl where
  sections : List SectionImpl
  globalMetadata : List (String × String)
deriving DecidableEq, Repr

def orderKey (s : SectionImpl) : Nat :=
  match s.options.order with
  | some n => n
  | none => 9007199254740991

def insertByOrder (x : SectionImpl) : List SectionImpl → List SectionImpl
  | [] => [x]
  | y :: ys => if orderKey x ≤ orderKey y then x :: y :: ys else y :: insertByOrder x ys

def sortSectionsByOrder : List SectionImpl → List SectionImpl
  | [] => []
  | x :: xs => insertByOrder x (sortSectionsByOrder xs)

def generatorHeaderText : String :=
  "/** Generated TypeScript code */\n"

def GeneratorImpl.generate (g : GeneratorImpl) : String × GeneratorImpl :=
  let sorted := sortSectionsByOrder g.sections
  let combined := joinSep "\n\n" (sorted.map (fun s => (s.generate).1))
  let out :=
    if !g.globalMetadata.isEmpty && !combined.isEmpty then generatorHeaderText ++ combined
    else combined
  (out, ⟨g.sections.map (fun s => (s.generate).2), g.globalMetadata⟩)

/-! ### Control-flow builders

Embedding of `BlockBuilderImpl`, `IfStatementBuilderImpl` and the loop
builders.  A parsed statement is modelled by its source text; configuration
errors (`throw new Error(...)`) are the `Except.error` results. -/

structure BlockBuilderImpl where
  statements : List String
deriving DecidableEq, Repr

inductive TsStmt
  | block (stmts : List String)
  | ifStmt (cond : String) (thenPart : TsStmt) (elsePart : Option TsStmt)
  | whileStmt (cond : String) (body : TsStmt)

def BlockBuilderImpl.generateNode (b : BlockBuilderImpl) : TsStmt :=
  .block b.statements

structure IfStatementBuilderImpl where
  conditionExpr : Option String
  thenBlock : Option BlockBuilderImpl
  elseIfClauses : List (String × BlockBuilderImpl)
  elseBlock : Option BlockBuilderImpl
deriving DecidableEq, Repr

def IfStatementBuilderImpl.generateNode (b : IfStatementBuilderImpl) :
    Except String TsStmt :=
  match b.conditionExpr with
  | none => .error "Condition is required for if statement"
  | some cond =>
    match b.thenBlock with
    | none => .error "Then block is required for if statement"
    | some tb =>
      let thenStatement := tb.generateNode
      let elseStatement : Option TsStmt :=
        if b.elseIfClauses.isEmpty then b.elseBlock.map (fun eb => eb.generateNode)
        else
          b.elseIfClauses.foldr
            (fun clause acc => some (.ifStmt clause.1 clause.2.generateNode acc))
            (b.elseBlock.map (fun eb => eb.generateNode))
      .ok (.ifStmt cond thenStatement elseStatement)

/-- `LoopBuilderImpl.getBodyNode`, shared by every loop builder. -/
def getBodyNode (bodyBlock : Option BlockBuilderImpl) : Except String TsStmt :=
  match bodyBlock with
  | none => .error "Body is required for loop statement"
  | some b => .ok b.generateNode

structure WhileLoopBuilderImpl where
  conditionExpr : Option String
  bodyBlock : Option BlockBuilderImpl
deriving DecidableEq, Repr

def WhileLoopBuilderImpl.generateNode (b : WhileLoopBuilderImpl) :
    Except String TsStmt :=
  match b.conditionExpr with
  | none => .error "Condition is required for while statement"
  | some cond =>
    match getBodyNode b.bodyBlock with
    | .error e => .error e
    | .ok body => .ok (.whileStmt cond body)

/-! ### General lemmas about the substring predicate and string utilities -/

theorem isPrefixOf_append {n l t : List Char} (h : n.isPrefixOf l = true) :
    n.isPrefixOf (l ++ t) = true :=
  List.isPrefixOf_iff_prefix.mpr ((List.isPrefixOf_iff_prefix.mp h).trans (List.prefix_append l t))

theorem subOf_nil : ∀ l : List Char, subOf [] l = true := by
  intro l
  cases l with
  | nil => rfl
  | cons c t => simp [subOf, List.isPrefixOf]

theorem subOf_refl (n : List Char) : subOf n n = true := by
  cases n with
  | nil => rfl
  | cons c t =>
    have : (c :: t).isPrefixOf (c :: t) = true :=
      List.isPrefixOf_iff_prefix.mpr (List.prefix_refl _)
    simp [subOf, this]

theorem subOf_append_right {n b : List Char} (a : List Char) (h : subOf n b = true) :
    subOf n (a ++ b) = true := by
  induction a with
  | nil => simpa using h
  | cons c t ih => simp [subOf, ih]

theorem subOf_append_left {n : List Char} (b : List Char) :
    ∀ {a : List Char}, subOf n a = true → subOf n (a ++ b) = true := by
  intro a
  induction a with
  | nil =>
    intro h
    have hn : n = [] := by simpa [subOf, List.isEmpty_iff] using h
    subst hn
    exact subOf_nil _
  | cons c t ih =>
    intro h
    rw [List.cons_append]
    simp only [subOf, Bool.or_eq_true] at h ⊢
    rcases h with h | h
    · exact Or.inl (isPrefixOf_append h)
    · exact Or.inr (ih h)

theorem strContains_self (s : String) : strContains s s = true :=
  subOf_refl _

theorem strContains_empty (h : String) : strContains h "" = true :=
  subOf_nil _

theorem strContains_append_left {a x : String} (b : String)
    (h : strContains a x = true) : strContains (a ++ b) x = true := by
  unfold strContains at h ⊢
  rw [String.data_append]
  exact subOf_append_left _ h

theorem strContains_append_right {b x : String} (a : String)
    (h : strContains b x = true) : strContains (a ++ b) x = true := by
  unfold strContains at h ⊢
  rw [String.data_append]
  exact subOf_append_right _ h

theorem strContains_joinSep {x e : String} (sep : String) :
    ∀ {l : List String}, e ∈ l → strContains e x = true →
      strContains (joinSep sep l) x = true := by
  intro l
  induction l with
  | nil => intro h; cases h
  | cons y t ih =>
    intro hm hc
    cases t with
    | nil =>
      have : e = y := by simpa using hm
      subst this
      simpa [joinSep] using hc
    | cons z t2 =>
      rcases List.mem_cons.mp hm with hm | hm
      · subst hm
        show strContains (e ++ sep ++ joinSep sep (z :: t2)) x = true
        exact strContains_append_left _ (strContains_append_left _ hc)
      · show strContains (y ++ sep ++ joinSep sep (z :: t2)) x = true
        exact strContains_append_right _ (ih hm hc)

theorem mem_dropWhile_of_neg {p : Char → Bool} {c : Char} :
    ∀ {l : List Char}, c ∈ l → p c = false → c ∈ l.dropWhile p := by
  intro l
  induction l with
  | nil => intro h; cases h
  | cons d t ih =>
    intro hm hc
    by_cases hd : p d
    · rcases List.mem_cons.mp hm with he | hm2
      · subst he; rw [hd] at hc; cases hc
      · simpa [List.dropWhile, hd] using ih hm2 hc
    · simpa [List.dropWhile, hd] using hm

theorem string_mk_eq_empty_iff (l : List Char) : String.mk l = "" ↔ l = [] := by
  constructor
  · intro h
    exact congrArg String.data h
  · intro h
    rw [h]

theorem jsTrim_isEmpty_false {s : String} {c : Char} (hm : c ∈ s.data)
    (hc : jsSpace c = false) : (jsTrim s).isEmpty = false := by
  have h1 : c ∈ (s.data.dropWhile jsSpace) := mem_dropWhile_of_neg hm hc
  have h2 : c ∈ (s.data.dropWhile jsSpace).reverse := List.mem_reverse.mpr h1
  have h3 : c ∈ (s.data.dropWhile jsSpace).reverse.dropWhile jsSpace :=
    mem_dropWhile_of_neg h2 hc
  have h4 : c ∈ ((s.data.dropWhile jsSpace).reverse.dropWhile jsSpace).reverse :=
    List.mem_reverse.mpr h3
  have h5 : jsTrim s ≠ "" := by
    intro he
    unfold jsTrim at he
    have := (string_mk_eq_empty_iff _).mp he
    rw [this] at h4
    cases h4
  cases hb : (jsTrim s).isEmpty with
  | false => rfl
  | true => exact absurd ((String.isEmpty_iff _).mp hb) h5

/-! ### Lemmas about import-registry rendering -/

/-- The import-specifier function used by `createImportClause` on a
named-import definition. -/
def specOfNamed (imp : NamedImportDefinition) : ImportSpecifier :=
  ⟨imp.aliasName.map (fun _ => imp.name), (imp.aliasName).getD imp.name⟩

theorem createImportClause_no_ns (b : ImportsBuilderImpl) (dOpt : Option String)
    (named : List NamedImportDefinition) (hne : named.isEmpty = false) :
    b.createImportClause dOpt none named =
      some ⟨b.options.typeOnly, dOpt, some (.namedBindings (named.map specOfNamed))⟩ := by
  unfold ImportsBuilderImpl.createImportClause specOfNamed
  cases dOpt <;> simp [hne]

theorem createImportClause_ns (b : ImportsBuilderImpl) (dOpt : Option String)
    (ns : String) (named : List NamedImportDefinition) :
    b.createImportClause dOpt (some ns) named =
      some ⟨b.options.typeOnly, dOpt, some (.namespaceBinding ns)⟩ := by
  unfold ImportsBuilderImpl.createImportClause
  cases dOpt <;> simp

theorem renderImportSpecifier_contains (imp : NamedImportDefinition) :
    strContains (renderImportSpecifier (specOfNamed imp))
      ((imp.aliasName).getD imp.name) = true := by
  cases h : imp.aliasName with
  | none => simp [specOfNamed, renderImportSpecifier, h, strContains_self]
  | some a =>
    have : renderImportSpecifier (specOfNamed imp) = imp.name ++ " as " ++ a := by
      simp [specOfNamed, renderImportSpecifier, h]
    rw [this]
    simpa using strContains_append_right (imp.name ++ " as ") (strContains_self a)

theorem mem_data_append_left {s : String} {c : Char} (t : String) (h : c ∈ s.data) :
    c ∈ (s ++ t).data := by
  rw [String.data_append]
  exact List.mem_append_left _ h

theorem printImportDeclaration_contains_bindings {nb : NamedBindings} {y : String}
    (tOnly : Bool) (nm : Option String) (mod : String)
    (h : strContains (renderNamedBindings nb) y = true) :
    strContains (printImportDeclaration (some ⟨tOnly, nm, some nb⟩) mod) y = true := by
  unfold printImportDeclaration
  have hmem : renderNamedBindings nb ∈
      ((match nm with | some n => [n] | none => []) ++ [renderNamedBindings nb]) :=
    List.mem_append_right _ (List.mem_singleton.mpr rfl)
  have hj := strContains_joinSep ", " hmem h
  exact strContains_append_left _ (strContains_append_left _
    (strContains_append_left _ (strContains_append_right _ hj)))

theorem printImportDeclaration_contains_name {n : String} {nb : Option NamedBindings}
    (tOnly : Bool) (mod : String) :
    strContains (printImportDeclaration (some ⟨tOnly, some n, nb⟩) mod) n = true := by
  unfold printImportDeclaration
  have hmem : n ∈
      ([n] ++ (match nb with | some x => [renderNamedBindings x] | none => [])) :=
    List.mem_append_left _ (List.mem_singleton.mpr rfl)
  have hj := strContains_joinSep ", " hmem (strContains_self n)
  exact strContains_append_left _ (strContains_append_left _
    (strContains_append_left _ (strContains_append_right _ hj)))

theorem printImportDeclaration_trim_ne (clause : Option ImportClause) (mod : String) :
    (jsTrim (printImportDeclaration clause mod)).isEmpty = false := by
  apply jsTrim_isEmpty_false (c := 'i')
  · cases clause with
    | none =>
      exact mem_data_append_left _ (mem_data_append_left _ (by decide))
    | some c =>
      unfold printImportDeclaration
      exact mem_data_append_left _ (mem_data_append_left _ (mem_data_append_left _
        (mem_data_append_left _ (mem_data_append_left _ (by decide)))))
  · decide

/-- When something survives the usage filter, `generate` takes the printing
branch with the surviving bindings. -/
theorem generate_eq_printed {b : ImportsBuilderImpl}
    (h : (b.filteredNamedImports.isEmpty && !b.includeDefault && !b.includeNamespace) = false) :
    b.generate = printImportDeclaration
      (b.createImportClause
        (if b.includeDefault then b.defaultImport.map (fun d => d.name) else none)
        (if b.includeNamespace then b.namespaceImport.map (fun d => d.name) else none)
        b.filteredNamedImports)
      b.moduleSpecifier := by
  unfold ImportsBuilderImpl.generate
  simp only [h, Bool.false_eq_true, if_false]

/-- A named binding that survived the usage filter of a registry with no
namespace import is rendered (its local name occurs in the generated text),
and the generated text does not trim to empty. -/
theorem generate_contains_of_mem_filtered {b : ImportsBuilderImpl}
    {imp : NamedImportDefinition} (hmem : imp ∈ b.filteredNamedImports)
    (hns : b.namespaceImport = none) :
    strContains b.generate ((imp.aliasName).getD imp.name) = true
      ∧ (jsTrim b.generate).isEmpty = false := by
  have hfe : b.filteredNamedImports.isEmpty = false := by
    cases hl : b.filteredNamedImports with
    | nil => rw [hl] at hmem; cases hmem
    | cons x xs => rfl
  have hinN : b.includeNamespace = false := by
    simp [ImportsBuilderImpl.includeNamespace, hns]
  have hcond : (b.filteredNamedImports.isEmpty && !b.includeDefault && !b.includeNamespace)
      = false := by
    rw [hfe]; simp
  rw [generate_eq_printed hcond, hinN]
  simp only [Bool.false_eq_true, if_false]
  rw [createImportClause_no_ns _ _ _ hfe]
  constructor
  · apply printImportDeclaration_contains_bindings
    have hspec : specOfNamed imp ∈ b.filteredNamedImports.map specOfNamed :=
      List.mem_map_of_mem _ hmem
    have hrender : renderImportSpecifier (specOfNamed imp) ∈
        (b.filteredNamedImports.map specOfNamed).map renderImportSpecifier :=
      List.mem_map_of_mem _ hspec
    have hj := strContains_joinSep ", " hrender (renderImportSpecifier_contains imp)
    exact strContains_append_left _ (strContains_append_right _ hj)
  · exact printImportDeclaration_trim_ne _ _

theorem createImportClause_some_name (b : ImportsBuilderImpl) (n : String)
    (nsOpt : Option String) (named : List NamedImportDefinition) :
    ∃ nb, b.createImportClause (some n) nsOpt named = some ⟨b.options.typeOnly, some n, nb⟩ := by
  unfold ImportsBuilderImpl.createImportClause
  cases nsOpt with
  | some ns => exact ⟨some (.namespaceBinding ns), rfl⟩
  | none =>
    by_cases hne : named.isEmpty
    · exact ⟨none, by simp [hne]⟩
    · exact ⟨some (.namedBindings (named.map specOfNamed)),
        by simp [hne, specOfNamed]⟩

/-- An included default import is rendered. -/
theorem generate_contains_default {b : ImportsBuilderImpl} {d : ImportFlag}
    (hinc : b.includeDefault = true) (hd : b.defaultImport = some d) :
    strContains b.generate d.name = true := by
  have hcond : (b.filteredNamedImports.isEmpty && !b.includeDefault && !b.includeNamespace)
      = false := by
    rw [hinc]; simp
  rw [generate_eq_printed hcond, hinc, hd]
  simp only [if_true, Option.map_some']
  obtain ⟨nb, hcl⟩ := createImportClause_some_name b d.name
    (if b.includeNamespace then b.namespaceImport.map (fun d => d.name) else none)
    b.filteredNamedImports
  rw [hcl]
  exact printImportDeclaration_contains_name _ _

/-- An included namespace import is rendered. -/
theorem generate_contains_namespace {b : ImportsBuilderImpl} {d : ImportFlag}
    (hinc : b.includeNamespace = true) (hd : b.namespaceImport = some d) :
    strContains b.generate d.name = true := by
  have hcond : (b.filteredNamedImports.isEmpty && !b.includeDefault && !b.includeNamespace)
      = false := by
    rw [hinc]; simp
  rw [generate_eq_printed hcond, hinc, hd]
  simp only [if_true, Option.map_some']
  rw [createImportClause_ns]
  apply printImportDeclaration_contains_bindings
  show strContains ("* as " ++ d.name) d.name = true
  exact strContains_append_right _ (strContains_self _)

/-- A registry in which nothing is marked used and `includeUnused` is off
renders to empty text. -/
theorem generate_eq_empty {b : ImportsBuilderImpl}
    (hinc : b.options.includeUnused = false)
    (hn : ∀ imp ∈ b.namedImports, imp.used = false)
    (hd : ∀ d, b.defaultImport = some d → d.used = false)
    (hns : ∀ d, b.namespaceImport = some d → d.used = false) :
    b.generate = "" := by
  have hfil : b.filteredNamedImports = [] := by
    unfold ImportsBuilderImpl.filteredNamedImports
    rw [hinc]
    simp only [Bool.false_eq_true, if_false]
    refine List.filter_eq_nil_iff.mpr ?_
    intro imp h
    simp [hn imp h]
  have hif : b.includeDefault = false := by
    unfold ImportsBuilderImpl.includeDefault
    cases hdc : b.defaultImport with
    | none => rfl
    | some d => simp [hinc, hd d hdc]
  have hin : b.includeNamespace = false := by
    unfold ImportsBuilderImpl.includeNamespace
    cases hdc : b.namespaceImport with
    | none => rfl
    | some d => simp [hinc, hns d hdc]
  unfold ImportsBuilderImpl.generate
  simp [hfil, hif, hin]

/-! ### Lemmas about section generation -/

theorem sectionParts_congr {s₁ s₂ : SectionImpl}
    (ho : s₁.options = s₂.options)
    (hni : s₁.nonImportItems = s₂.nonImportItems) :
    s₁.sortedNonImportItems = s₂.sortedNonImportItems ∧
    s₁.trackerOf = s₂.trackerOf ∧
    s₁.stringNodeCodes = s₂.stringNodeCodes ∧
    s₁.astNodesOf = s₂.astNodesOf := by
  have hsort : s₁.options.sortItems = s₂.options.sortItems := by rw [ho]
  have hs : s₁.sortedNonImportItems = s₂.sortedNonImportItems := by
    unfold SectionImpl.sortedNonImportItems
    rw [hsort, hni]
  refine ⟨hs, ?_, ?_, ?_⟩
  · unfold SectionImpl.trackerOf; rw [hs]
  · unfold SectionImpl.stringNodeCodes; rw [hs]
  · unfold SectionImpl.astNodesOf; rw [hs]

/-- The rendered output of a section is a function of its name, options,
non-import items and surviving import strings. -/
theorem generate_fst_congr {s₁ s₂ : SectionImpl}
    (hn : s₁.name = s₂.name) (ho : s₁.options = s₂.options)
    (hni : s₁.nonImportItems = s₂.nonImportItems)
    (his : s₁.importStrings = s₂.importStrings) :
    (s₁.generate).1 = (s₂.generate).1 := by
  obtain ⟨hs, htr, hcodes, hast⟩ := sectionParts_congr ho hni
  have hdesc : s₁.options.description = s₂.options.description := by rw [ho]
  have hmeta : s₁.options.metadata = s₂.options.metadata := by rw [ho]
  have hheader : s₁.headerCommentString = s₂.headerCommentString := by
    unfold SectionImpl.headerCommentString
    rw [hn, hdesc, hmeta]
  have hsc : s₁.sectionCommentText = s₂.sectionCommentText := by
    unfold SectionImpl.sectionCommentText
    rw [hn, hdesc]
  have hsp : s₁.stringOnlyPath = s₂.stringOnlyPath := by
    unfold SectionImpl.stringOnlyPath
    rw [hast, hcodes, his]
  have h1 : s₁.stringPathOutput = s₂.stringPathOutput := by
    unfold SectionImpl.stringPathOutput
    rw [hheader, his, hcodes, hn]
  have h2 : s₁.astPathOutput = s₂.astPathOutput := by
    unfold SectionImpl.astPathOutput
    rw [hast, hsc, hn, his, hcodes]
  show (if s₁.stringOnlyPath then s₁.stringPathOutput else s₁.astPathOutput) =
    (if s₂.stringOnlyPath then s₂.stringPathOutput else s₂.astPathOutput)
  rw [hsp, h1, h2]

theorem importStrings_congr {s₁ s₂ : SectionImpl}
    (ho : s₁.options = s₂.options) (hni : s₁.nonImportItems = s₂.nonImportItems)
    (hii : s₁.importItems = s₂.importItems) :
    s₁.importStrings = s₂.importStrings := by
  obtain ⟨hs, htr, _, _⟩ := sectionParts_congr ho hni
  have hp : s₁.processedImportItems = s₂.processedImportItems := by
    unfold SectionImpl.processedImportItems
    rw [htr, hii]
  have hf : s₁.filteredImportItems = s₂.filteredImportItems := by
    unfold SectionImpl.filteredImportItems
    rw [hp]
  unfold SectionImpl.importStrings
  rw [hf]

theorem strContains_extend_step {r y : String} (b sep : String)
    (h : strContains r y = true) :
    strContains ((if r.isEmpty then r else r ++ sep) ++ b) y = true := by
  by_cases hr : r.isEmpty
  · rw [if_pos hr]; exact strContains_append_left _ h
  · rw [if_neg hr]; exact strContains_append_left _ (strContains_append_left _ h)

theorem strContains_if_empty_extend {r y : String} (a : String)
    (h : strContains r y = true) :
    strContains (if a.isEmpty then r else (if r.isEmpty then r else r ++ "\n\n") ++ a) y
      = true := by
  by_cases ha : a.isEmpty
  · rw [if_pos ha]; exact h
  · rw [if_neg ha]; exact strContains_extend_step _ _ h

/-- Anything occurring in a surviving import string occurs in the section's
rendered output. -/
theorem strContains_generate_of_mem_importStrings {s : SectionImpl} {e y : String}
    (he : e ∈ s.importStrings) (hc : strContains e y = true) :
    strContains (s.generate).1 y = true := by
  have hne : s.importStrings.isEmpty = false := by
    cases hl : s.importStrings with
    | nil => rw [hl] at he; cases he
    | cons a t => rfl
  have hj : strContains (joinSep "\n" s.importStrings) y = true :=
    strContains_joinSep _ he hc
  show strContains (if s.stringOnlyPath then s.stringPathOutput else s.astPathOutput) y = true
  by_cases hp : s.stringOnlyPath
  · rw [if_pos hp]
    unfold SectionImpl.stringPathOutput
    simp only [hne, Bool.false_eq_true, if_false]
    by_cases hc2 : s.stringNodeCodes.isEmpty
    · simp only [hc2, if_true]
      exact strContains_append_left _ (strContains_append_left _
        (strContains_append_left _ (strContains_append_right _ hj)))
    · simp only [hc2, Bool.false_eq_true, if_false]
      exact strContains_append_left _ (strContains_append_left _
        (strContains_append_left _ (strContains_append_left _
          (strContains_append_right _ hj))))
  · rw [if_neg hp]
    unfold SectionImpl.astPathOutput
    simp only [hne, Bool.false_eq_true, if_false]
    by_cases hc2 : s.stringNodeCodes.isEmpty
    · simp only [hc2, if_true]
      exact strContains_if_empty_extend _ hj
    · simp only [hc2, Bool.false_eq_true, if_false]
      exact strContains_if_empty_extend _ (strContains_extend_step _ _ hj)

/-- A used named binding survives the usage filter. -/
theorem mem_filteredNamedImports_of_used {b : ImportsBuilderImpl}
    {imp : NamedImportDefinition} (hmem : imp ∈ b.namedImports)
    (hused : imp.used = true) : imp ∈ b.filteredNamedImports := by
  unfold ImportsBuilderImpl.filteredNamedImports
  by_cases hinc : b.options.includeUnused
  · rw [if_pos hinc]; exact hmem
  · rw [if_neg hinc]
    exact List.mem_filter.mpr ⟨hmem, hused⟩

/-- Reconciliation marks a binding whose source name the tracker reports. -/
theorem mem_markUsedFromTracker_of_isUsed {b : ImportsBuilderImpl}
    {imp : NamedImportDefinition} {t : TypeUsageTracker}
    (hmem : imp ∈ b.namedImports) (hused : t.isUsed imp.name = true) :
    ({ imp with used := true }) ∈ (b.markUsedFromTracker t).namedImports := by
  unfold ImportsBuilderImpl.markUsedFromTracker
  have := List.mem_map_of_mem
    (fun i => if t.isUsed i.name then { i with used := true } else i) hmem
  simpa [hused] using this

/-- A binding already marked used passes reconciliation unchanged in name,
alias and (true) flag. -/
theorem mem_markUsedFromTracker_of_used {b : ImportsBuilderImpl}
    {imp : NamedImportDefinition} (t : TypeUsageTracker)
    (hmem : imp ∈ b.namedImports) (hused : imp.used = true) :
    ({ imp with used := true }) ∈ (b.markUsedFromTracker t).namedImports := by
  unfold ImportsBuilderImpl.markUsedFromTracker
  have := List.mem_map_of_mem
    (fun i => if t.isUsed i.name then { i with used := true } else i) hmem
  by_cases hu : t.isUsed imp.name
  · simpa [hu] using this
  · have he : imp = { imp with used := true } := by
      cases imp
      simp_all
    simpa [hu, ← he] using this

/-- `markUsed` marks exactly the first named binding whose source name
matches. -/
theorem markUsedNamed_mem_of_find {nm : String} :
    ∀ {l : List NamedImportDefinition} {imp : NamedImportDefinition},
      l.find? (fun i => i.name == nm) = some imp →
      ({ imp with used := true }) ∈ markUsedNamed l nm := by
  intro l
  induction l with
  | nil => intro imp h; cases h
  | cons x xs ih =>
    intro imp h
    by_cases hx : x.name = nm
    · have hfind : x = imp := by
        rw [List.find?_cons_of_pos] at h
        · exact Option.some.inj h
        · simp [hx]
      subst hfind
      unfold markUsedNamed
      rw [if_pos hx]
      exact List.mem_cons_self _ _
    · have h2 : xs.find? (fun i => i.name == nm) = some imp := by
        rw [List.find?_cons_of_neg] at h
        · exact h
        · simp [hx]
      unfold markUsedNamed
      rw [if_neg hx]
      exact List.mem_cons_of_mem _ (ih h2)

/-- The reconciled-and-rendered text of an import item of the section is one
of the surviving import strings, provided it does not trim to empty. -/
theorem mem_importStrings_of_item {s : SectionImpl} {it : CodeItem}
    {b : ImportsBuilderImpl} (hmem : it ∈ s.items) (hty : isImportItem it = true)
    (hb : it.importsBuilder = some b)
    (hne : (jsTrim (b.markUsedFromTracker s.trackerOf).generate).isEmpty = false) :
    (b.markUsedFromTracker s.trackerOf).generate ∈ s.importStrings := by
  have h1 : it ∈ s.importItems := by
    unfold SectionImpl.importItems
    exact List.mem_filter.mpr ⟨hmem, hty⟩
  have h2 : processImportItem s.trackerOf it ∈ s.processedImportItems := by
    unfold SectionImpl.processedImportItems
    exact List.mem_map_of_mem _ h1
  have h3 : processImportItem s.trackerOf it =
      { it with
        node := .str (b.markUsedFromTracker s.trackerOf).generate,
        importsBuilder := some (b.markUsedFromTracker s.trackerOf) } := by
    unfold processImportItem
    rw [hb]
    simp [hne]
  rw [h3] at h2
  have h4 : ({ it with
      node := .str (b.markUsedFromTracker s.trackerOf).generate,
      importsBuilder := some (b.markUsedFromTracker s.trackerOf) } : CodeItem)
      ∈ s.filteredImportItems := by
    unfold SectionImpl.filteredImportItems
    refine List.mem_filter.mpr ⟨h2, ?_⟩
    simp [hne]
  unfold SectionImpl.importStrings
  exact List.mem_filterMap.mpr ⟨_, h4, rfl⟩

/-! ### Lemmas about the tracker folds -/

theorem mem_add {t : TypeUsageTracker} {x s : String} :
    x ∈ (t.add s).usedIdentifiers ↔ x ∈ t.usedIdentifiers ∨ x = s := by
  unfold TypeUsageTracker.add
  by_cases h : s ∈ t.usedIdentifiers
  · rw [if_pos h]
    constructor
    · exact Or.inl
    · rintro (hx | rfl)
      · exact hx
      · exact h
  · rw [if_neg h]
    simp

theorem mem_foldl_addIf (P : String × List Char → Bool) :
    ∀ (l : List (String × List Char)) (t : TypeUsageTracker) (x : String),
      (x ∈ (l.foldl (fun a p => if P p then a.add p.1 else a) t).usedIdentifiers ↔
        x ∈ t.usedIdentifiers ∨ ∃ p ∈ l, P p = true ∧ p.1 = x) := by
  intro l
  induction l with
  | nil => simp
  | cons q qs ih =>
    intro t x
    simp only [List.foldl_cons]
    rw [ih]
    by_cases hq : P q
    · rw [if_pos hq]
      rw [mem_add]
      constructor
      · rintro ((hx | rfl) | hx)
        · exact Or.inl hx
        · exact Or.inr ⟨q, List.mem_cons_self _ _, hq, rfl⟩
        · obtain ⟨p, hp, hP, he⟩ := hx
          exact Or.inr ⟨p, List.mem_cons_of_mem _ hp, hP, he⟩
      · rintro (hx | ⟨p, hp, hP, he⟩)
        · exact Or.inl (Or.inl hx)
        · rcases List.mem_cons.mp hp with rfl | hp2
          · exact Or.inl (Or.inr he.symm)
          · exact Or.inr ⟨p, hp2, hP, he⟩
    · rw [if_neg hq]
      constructor
      · rintro (hx | ⟨p, hp, hP, he⟩)
        · exact Or.inl hx
        · exact Or.inr ⟨p, List.mem_cons_of_mem _ hp, hP, he⟩
      · rintro (hx | ⟨p, hp, hP, he⟩)
        · exact Or.inl hx
        · rcases List.mem_cons.mp hp with rfl | hp2
          · rw [hP] at hq; cases hq rfl
          · exact Or.inr ⟨p, hp2, hP, he⟩

theorem mem_foldl_addUnless (P : String × List Char → Prop) [DecidablePred P] :
    ∀ (l : List (String × List Char)) (t : TypeUsageTracker) (x : String),
      (x ∈ (l.foldl (fun a p => if P p then a else a.add p.1) t).usedIdentifiers ↔
        x ∈ t.usedIdentifiers ∨ ∃ p ∈ l, ¬P p ∧ p.1 = x) := by
  intro l
  induction l with
  | nil => simp
  | cons q qs ih =>
    intro t x
    simp only [List.foldl_cons]
    rw [ih]
    by_cases hq : P q
    · rw [if_pos hq]
      constructor
      · rintro (hx | ⟨p, hp, hP, he⟩)
        · exact Or.inl hx
        · exact Or.inr ⟨p, List.mem_cons_of_mem _ hp, hP, he⟩
      · rintro (hx | ⟨p, hp, hP, he⟩)
        · exact Or.inl hx
        · rcases List.mem_cons.mp hp with rfl | hp2
          · cases hP hq
          · exact Or.inr ⟨p, hp2, hP, he⟩
    · rw [if_neg hq]
      rw [mem_add]
      constructor
      · rintro ((hx | rfl) | hx)
        · exact Or.inl hx
        · exact Or.inr ⟨q, List.mem_cons_self _ _, hq, rfl⟩
        · obtain ⟨p, hp, hP, he⟩ := hx
          exact Or.inr ⟨p, List.mem_cons_of_mem _ hp, hP, he⟩
      · rintro (hx | ⟨p, hp, hP, he⟩)
        · exact Or.inl (Or.inl hx)
        · rcases List.mem_cons.mp hp with rfl | hp2
          · exact Or.inl (Or.inr he.symm)
          · exact Or.inr ⟨p, hp2, hP, he⟩

/-! ### Claim theorems -/

/-- **C2** (amended): for every import registry and every binding,
reconciliation against a usage tracker sets the binding's `used` flag to
`true` iff the flag was already set or the tracker reports the binding's
*source* name (`name`; for an aliased named binding this is not the local
alias) as used; names and aliases are unchanged and a set flag is never
revoked. -/
theorem c2_reconciliation_checks_source_name :
    ∀ (b : ImportsBuilderImpl) (t : TypeUsageTracker),
      (b.markUsedFromTracker t).namedImports.length = b.namedImports.length ∧
      (∀ (i : Nat) (imp : NamedImportDefinition), b.namedImports[i]? = some imp →
        (b.markUsedFromTracker t).namedImports[i]? =
          some { imp with used := imp.used || t.isUsed imp.name }) ∧
      (∀ d, b.defaultImport = some d →
        (b.markUsedFromTracker t).defaultImport =
          some { d with used := d.used || t.isUsed d.name }) ∧
      (∀ d, b.namespaceImport = some d →
        (b.markUsedFromTracker t).namespaceImport =
          some { d with used := d.used || t.isUsed d.name }) := by
  intro b t
  refine ⟨by simp [ImportsBuilderImpl.markUsedFromTracker], ?_, ?_, ?_⟩
  · intro i imp h
    unfold ImportsBuilderImpl.markUsedFromTracker
    simp only [List.getElem?_map, h, Option.map_some']
    by_cases hu : t.isUsed imp.name
    · simp [hu]
    · cases imp
      simp_all
  · intro d h
    unfold ImportsBuilderImpl.markUsedFromTracker
    simp only [h, Option.map_some']
    by_cases hu : t.isUsed d.name
    · simp [hu]
    · cases d
      simp_all
  · intro d h
    unfold ImportsBuilderImpl.markUsedFromTracker
    simp only [h, Option.map_some']
    by_cases hu : t.isUsed d.name
    · simp [hu]
    · cases d
      simp_all

def bC2 : ImportsBuilderImpl :=
  ⟨"m", [⟨"Foo", some "Bar", false⟩], none, none, ⟨false, false⟩⟩

def tC2 : TypeUsageTracker := ⟨["Bar"]⟩

/-- **C2 counterexample**: the binding `Foo as Bar` is unmarked and the
tracker reports exactly the local name `Bar` as used, yet reconciliation
leaves the binding unused, because the code looks up the source name `Foo`
rather than the local alias. -/
theorem c2_counterexample :
    tC2.isUsed "Bar" = true ∧
    (bC2.namedImports.map (fun i => i.used)) = [false] ∧
    ((bC2.markUsedFromTracker tC2).namedImports.map (fun i => i.used)) = [false] := by
  decide

/-- Witness for C2 at a concrete registry and tracker. -/
theorem c2_witness :
    ((⟨"m", [⟨"Foo", none, false⟩], none, none, ⟨false, false⟩⟩ :
        ImportsBuilderImpl).markUsedFromTracker ⟨["Foo"]⟩).namedImports[0]? =
      some ⟨"Foo", none, false || (⟨["Foo"]⟩ : TypeUsageTracker).isUsed "Foo"⟩ :=
  (c2_reconciliation_checks_source_name
    ⟨"m", [⟨"Foo", none, false⟩], none, none, ⟨false, false⟩⟩ ⟨["Foo"]⟩).2.1
    0 ⟨"Foo", none, false⟩ rfl

theorem markUsedNamed_eq_of_not_mem {nm : String} :
    ∀ {l : List NamedImportDefinition},
      (∀ imp ∈ l, imp.name ≠ nm) → markUsedNamed l nm = l := by
  intro l
  induction l with
  | nil => intro _; rfl
  | cons x xs ih =>
    intro h
    unfold markUsedNamed
    rw [if_neg (h x (List.mem_cons_self _ _))]
    rw [ih (fun imp hm => h imp (List.mem_cons_of_mem _ hm))]

/-- **C10**: `markUsed` with a name that matches no binding's source name
(in particular a name that only matches an alias), and
`markDefaultUsed` / `markNamespaceUsed` with no default / namespace binding
declared, are silent no-ops: the registry is returned unchanged. -/
theorem c10_mark_missing_is_noop :
    ∀ (b : ImportsBuilderImpl) (nm : String),
      ((∀ imp ∈ b.namedImports, imp.name ≠ nm) → b.markUsed nm = b) ∧
      (b.defaultImport = none → b.markDefaultUsed = b) ∧
      (b.namespaceImport = none → b.markNamespaceUsed = b) := by
  intro b nm
  refine ⟨?_, ?_, ?_⟩
  · intro h
    unfold ImportsBuilderImpl.markUsed
    rw [markUsedNamed_eq_of_not_mem h]
  · intro h
    unfold ImportsBuilderImpl.markDefaultUsed
    rw [h]
    simp only [Option.map_none']
    rw [← h]
  · intro h
    unfold ImportsBuilderImpl.markNamespaceUsed
    rw [h]
    simp only [Option.map_none']
    rw [← h]

def bC10 : ImportsBuilderImpl :=
  ⟨"m", [⟨"Foo", some "Bar", false⟩], none, none, ⟨false, false⟩⟩

/-- Witness for C10: `markUsed "Bar"` matches only the alias of
`Foo as Bar`, so nothing changes; the absent default and namespace marks are
also no-ops. -/
theorem c10_witness :
    bC10.markUsed "Bar" = bC10 ∧
    bC10.markDefaultUsed = bC10 ∧ bC10.markNamespaceUsed = bC10 :=
  ⟨(c10_mark_missing_is_noop bC10 "Bar").1 (by decide),
   (c10_mark_missing_is_noop bC10 "Bar").2.1 rfl,
   (c10_mark_missing_is_noop bC10 "Bar").2.2 rfl⟩

/-- **C9**: rendering an if-construct without a condition or without a then
block, or a loop construct without a body, returns a synchronous error (no
output is produced), and each message names the missing piece and the
construct kind. -/
theorem c9_missing_config_errors :
    ∀ (ib : IfStatementBuilderImpl) (wb : WhileLoopBuilderImpl),
      (ib.conditionExpr = none →
        ib.generateNode = .error "Condition is required for if statement") ∧
      (∀ c, ib.conditionExpr = some c → ib.thenBlock = none →
        ib.generateNode = .error "Then block is required for if statement") ∧
      (∀ c, wb.conditionExpr = some c → wb.bodyBlock = none →
        wb.generateNode = .error "Body is required for loop statement") ∧
      (wb.conditionExpr = none →
        wb.generateNode = .error "Condition is required for while statement") := by
  intro ib wb
  refine ⟨?_, ?_, ?_, ?_⟩
  · intro h
    unfold IfStatementBuilderImpl.generateNode
    rw [h]
  · intro c h1 h2
    unfold IfStatementBuilderImpl.generateNode
    rw [h1, h2]
  · intro c h1 h2
    unfold WhileLoopBuilderImpl.generateNode
    rw [h1]
    unfold getBodyNode
    rw [h2]
  · intro h
    unfold WhileLoopBuilderImpl.generateNode
    rw [h]

/-- Witness for C9 at concrete builders missing each required piece. -/
theorem c9_witness :
    (⟨none, none, [], none⟩ : IfStatementBuilderImpl).generateNode
        = .error "Condition is required for if statement" ∧
    (⟨some "x > 0", none, [], none⟩ : IfStatementBuilderImpl).generateNode
        = .error "Then block is required for if statement" ∧
    (⟨some "x > 0", none⟩ : WhileLoopBuilderImpl).generateNode
        = .error "Body is required for loop statement" ∧
    (⟨none, none⟩ : WhileLoopBuilderImpl).generateNode
        = .error "Condition is required for while statement" :=
  ⟨(c9_missing_config_errors ⟨none, none, [], none⟩ ⟨some "x > 0", none⟩).1 rfl,
   (c9_missing_config_errors ⟨some "x > 0", none, [], none⟩ ⟨some "x > 0", none⟩).2.1
     "x > 0" rfl rfl,
   (c9_missing_config_errors ⟨none, none, [], none⟩ ⟨some "x > 0", none⟩).2.2.1
     "x > 0" rfl rfl,
   (c9_missing_config_errors ⟨none, none, [], none⟩ ⟨none, none⟩).2.2.2 rfl⟩

/-- **C4** (amended): in every rendered import statement the default name
comes before the bindings group; the *namespace* binding and the *named*
group are mutually exclusive with the namespace taking precedence (a default
may co-occur with a namespace); and the named bindings render in exactly the
declared order — the usage filter is an order-preserving sublist selection,
never a sort. -/
theorem c4_rendered_statement_structure :
    ∀ b : ImportsBuilderImpl,
      List.Sublist b.filteredNamedImports b.namedImports ∧
      (∀ d, b.namespaceImport = some d → b.includeNamespace = true →
        b.generate = "import " ++ (if b.options.typeOnly then "type " else "") ++
          joinSep ", "
            ((match (if b.includeDefault then b.defaultImport.map (fun x => x.name) else none)
                with
              | some n => [n]
              | none => []) ++ ["* as " ++ d.name]) ++
          " from \"" ++ b.moduleSpecifier ++ "\";") ∧
      (b.includeNamespace = false → b.filteredNamedImports.isEmpty = false →
        b.generate = "import " ++ (if b.options.typeOnly then "type " else "") ++
          joinSep ", "
            ((match (if b.includeDefault then b.defaultImport.map (fun x => x.name) else none)
                with
              | some n => [n]
              | none => []) ++
             ["\x7b " ++
              joinSep ", " ((b.filteredNamedImports.map specOfNamed).map renderImportSpecifier)
              ++ " \x7d"]) ++
          " from \"" ++ b.moduleSpecifier ++ "\";") := by
  intro b
  refine ⟨?_, ?_, ?_⟩
  · unfold ImportsBuilderImpl.filteredNamedImports
    by_cases hinc : b.options.includeUnused
    · rw [if_pos hinc]
    · rw [if_neg hinc]
      exact List.filter_sublist _
  · intro d hd hin
    have hcond : (b.filteredNamedImports.isEmpty && !b.includeDefault && !b.includeNamespace)
        = false := by
      rw [hin]; simp
    rw [generate_eq_printed hcond, hin, hd]
    simp only [if_true, Option.map_some']
    rw [createImportClause_ns]
    rfl
  · intro hin hne
    have hcond : (b.filteredNamedImports.isEmpty && !b.includeDefault && !b.includeNamespace)
        = false := by
      rw [hne]; simp
    rw [generate_eq_printed hcond, hin]
    simp only [Bool.false_eq_true, if_false]
    rw [createImportClause_no_ns _ _ _ hne]
    rfl

def bC4 : ImportsBuilderImpl :=
  ⟨"m", [], some ⟨"D", true⟩, some ⟨"N", true⟩, ⟨false, false⟩⟩

/-- **C4 counterexample**: with both a default `D` and a namespace `N`
populated and used, the rendered statement contains both — default and
namespace are *not* mutually exclusive and the namespace does not displace
the default. -/
theorem c4_counterexample :
    bC4.generate = "import D, * as N from \"m\";" ∧
    strContains bC4.generate "D" = true ∧
    strContains bC4.generate "* as N" = true := by
  decide

def bC4w : ImportsBuilderImpl :=
  ⟨"react", [⟨"useState", none, true⟩, ⟨"useEffect", none, false⟩,
    ⟨"useContext", none, true⟩], none, none, ⟨false, false⟩⟩

/-- Witness for C4: the used bindings of a concrete registry render in
declared order. -/
theorem c4_witness :
    List.Sublist bC4w.filteredNamedImports bC4w.namedImports ∧
    bC4w.generate = "import " ++ (if bC4w.options.typeOnly then "type " else "") ++
      joinSep ", "
        ((match (if bC4w.includeDefault then bC4w.defaultImport.map (fun x => x.name) else none)
            with
          | some n => [n]
          | none => []) ++
         ["\x7b " ++
          joinSep ", " ((bC4w.filteredNamedImports.map specOfNamed).map renderImportSpecifier)
          ++ " \x7d"]) ++
      " from \"" ++ bC4w.moduleSpecifier ++ "\";" :=
  ⟨(c4_rendered_statement_structure bC4w).1,
   (c4_rendered_statement_structure bC4w).2.2 (by decide) (by decide)⟩

/-- **C5** (amended): an explicitly marked named binding is rendered
regardless of the tracker's contents *provided the registry has no namespace
binding* (a rendered namespace import replaces the whole named group); with
`includeUnused` set, the default and namespace bindings always render and
every named binding renders when no namespace binding is declared. -/
theorem c5_override_wins :
    ∀ b : ImportsBuilderImpl,
      (∀ (nm : String) (t : TypeUsageTracker) (imp : NamedImportDefinition),
        b.namedImports.find? (fun i => i.name == nm) = some imp →
        b.namespaceImport = none →
        strContains (((b.markUsed nm).markUsedFromTracker t).generate)
          ((imp.aliasName).getD imp.name) = true) ∧
      (b.options.includeUnused = true →
        (∀ imp ∈ b.namedImports, b.namespaceImport = none →
          strContains b.generate ((imp.aliasName).getD imp.name) = true) ∧
        (∀ d, b.defaultImport = some d → strContains b.generate d.name = true) ∧
        (∀ d, b.namespaceImport = some d → strContains b.generate d.name = true)) := by
  intro b
  constructor
  · intro nm t imp hfind hns
    have h1 : ({ imp with used := true }) ∈ (b.markUsed nm).namedImports :=
      markUsedNamed_mem_of_find hfind
    have h2 : ({ imp with used := true }) ∈
        (((b.markUsed nm).markUsedFromTracker t)).namedImports := by
      have := mem_markUsedFromTracker_of_used (b := b.markUsed nm) t h1 rfl
      simpa using this
    have h3 : ({ imp with used := true }) ∈
        ((b.markUsed nm).markUsedFromTracker t).filteredNamedImports :=
      mem_filteredNamedImports_of_used h2 rfl
    have hns2 : ((b.markUsed nm).markUsedFromTracker t).namespaceImport = none := by
      unfold ImportsBuilderImpl.markUsedFromTracker ImportsBuilderImpl.markUsed
      simp [hns]
    have := (generate_contains_of_mem_filtered h3 hns2).1
    simpa using this
  · intro hinc
    refine ⟨?_, ?_, ?_⟩
    · intro imp hmem hns
      have h1 : imp ∈ b.filteredNamedImports := by
        unfold ImportsBuilderImpl.filteredNamedImports
        rw [hinc]
        simpa using hmem
      exact (generate_contains_of_mem_filtered h1 hns).1
    · intro d hd
      have : b.includeDefault = true := by
        unfold ImportsBuilderImpl.includeDefault
        rw [hd, hinc]
        rfl
      exact generate_contains_default this hd
    · intro d hd
      have : b.includeNamespace = true := by
        unfold ImportsBuilderImpl.includeNamespace
        rw [hd, hinc]
        rfl
      exact generate_contains_namespace this hd

def bC5 : ImportsBuilderImpl :=
  ⟨"m", [⟨"foo", none, true⟩], none, some ⟨"NS", true⟩, ⟨false, false⟩⟩

/-- **C5 counterexample**: `foo` is a declared named binding explicitly
marked used, yet because a namespace binding also renders, the generated
statement omits `foo` entirely. -/
theorem c5_counterexample :
    (bC5.namedImports.map (fun i => i.used)) = [true] ∧
    bC5.generate = "import * as NS from \"m\";" ∧
    strContains bC5.generate "foo" = false := by
  decide

def bC5w : ImportsBuilderImpl :=
  ⟨"styled-components", [⟨"css", none, false⟩], some ⟨"styled", false⟩, none,
    ⟨true, false⟩⟩

/-- Witness for C5: an explicit mark renders under an empty tracker, and
`includeUnused` renders unmarked bindings. -/
theorem c5_witness :
    strContains ((((bC5w.markUsed "css").markUsedFromTracker ⟨[]⟩)).generate) "css" = true ∧
    strContains bC5w.generate "css" = true ∧
    strContains bC5w.generate "styled" = true :=
  ⟨(c5_override_wins bC5w).1 "css" ⟨[]⟩ ⟨"css", none, false⟩ (by decide) rfl,
   ((c5_override_wins bC5w).2 rfl).1 ⟨"css", none, false⟩ (by decide) rfl,
   ((c5_override_wins bC5w).2 rfl).2.1 ⟨"styled", false⟩ rfl⟩

/-- **C6** (amended): scanning the string-literal content
`"if (x) \x7b doThing(); \x7d"` adds `doThing` — and it *also* adds `if`,
because `if (` matches the function-call pattern and function-call callees
are always added; the stoplist suppresses only the bare-identifier rule.  In
general an identifier ends up in the set iff it was already there, or it is
a token followed by `(`, or it is a token outside the stoplist. -/
theorem c6_stoplist_and_callees :
    (∀ (t : TypeUsageTracker) (content : String) (x : String),
      x ∈ (t.scanStringContent content).usedIdentifiers ↔
        x ∈ t.usedIdentifiers ∨
        (∃ p ∈ identToks content.data, calleeRest p.2 = true ∧ p.1 = x) ∨
        (∃ p ∈ identToks content.data, p.1 ∉ keywordStoplist ∧ p.1 = x)) ∧
    ("doThing" ∈ (TypeUsageTracker.empty.scanString
        "\"if (x) \x7b doThing(); \x7d\"").usedIdentifiers ∧
     "if" ∈ (TypeUsageTracker.empty.scanString
        "\"if (x) \x7b doThing(); \x7d\"").usedIdentifiers) := by
  constructor
  · intro t content x
    unfold TypeUsageTracker.scanStringContent
    rw [mem_foldl_addUnless (fun p => p.1 ∈ keywordStoplist)]
    rw [mem_foldl_addIf (fun p => calleeRest p.2)]
    rw [or_assoc]
  · exact ⟨by decide, by decide⟩

/-- **C6 counterexample**: contrary to the claim, scanning the fragment with
string-literal content `"if (x) \x7b doThing(); \x7d"` *does* add `if` to
the used-identifier set: `if (` matches the function-call pattern, which is
not subject to the stoplist. -/
theorem c6_counterexample :
    ("if" ∈ (TypeUsageTracker.empty.scanString
        "\"if (x) \x7b doThing(); \x7d\"").usedIdentifiers) ∧
    ("if" ∈ (TypeUsageTracker.empty.scanStringContent
        "if (x) \x7b doThing(); \x7d").usedIdentifiers) := by
  decide

/-- Witness for C6: the characterization applied to a concrete scan. -/
theorem c6_witness :
    "doThing" ∈ ((⟨[]⟩ : TypeUsageTracker).scanStringContent "doThing()").usedIdentifiers :=
  (c6_stoplist_and_callees.1 ⟨[]⟩ "doThing()" "doThing").mpr
    (Or.inr (Or.inl ⟨("doThing", ['(', ')']), by decide, by decide, rfl⟩))

/-- **C8**: a registry in which (after reconciliation) no binding is marked
used and whose `includeUnused` option is off renders to empty text — a valid
result, not an error — and the enclosing section's output is the same as if
the import item had never been added: the empty import item is filtered out
before concatenation, leaving no stray blank import line. -/
theorem c8_empty_registry_contributes_nothing :
    ∀ (l1 l2 : List CodeItem) (name : String) (opts : SectionOptions)
      (nm : String) (b : ImportsBuilderImpl),
      b.options.includeUnused = false →
      (∀ imp ∈ (b.markUsedFromTracker
          (SectionImpl.mk name opts
            (l1 ++ ⟨ItemType.importItem, nm, .str "", some b⟩ :: l2)).trackerOf).namedImports,
        imp.used = false) →
      (∀ d, (b.markUsedFromTracker
          (SectionImpl.mk name opts
            (l1 ++ ⟨ItemType.importItem, nm, .str "", some b⟩ :: l2)).trackerOf).defaultImport
          = some d → d.used = false) →
      (∀ d, (b.markUsedFromTracker
          (SectionImpl.mk name opts
            (l1 ++ ⟨ItemType.importItem, nm, .str "", some b⟩ :: l2)).trackerOf).namespaceImport
          = some d → d.used = false) →
      (b.markUsedFromTracker
          (SectionImpl.mk name opts
            (l1 ++ ⟨ItemType.importItem, nm, .str "", some b⟩ :: l2)).trackerOf).generate
        = "" ∧
      ((SectionImpl.mk name opts
          (l1 ++ ⟨ItemType.importItem, nm, .str "", some b⟩ :: l2)).generate).1 =
        ((SectionImpl.mk name opts (l1 ++ l2)).generate).1 := by
  intro l1 l2 name opts nm b hinc hn hd hns
  set s : SectionImpl :=
    SectionImpl.mk name opts (l1 ++ ⟨ItemType.importItem, nm, .str "", some b⟩ :: l2)
    with hs
  set s2 : SectionImpl := SectionImpl.mk name opts (l1 ++ l2) with hs2
  have hgen : (b.markUsedFromTracker s.trackerOf).generate = "" :=
    generate_eq_empty hinc hn hd hns
  refine ⟨hgen, ?_⟩
  have hni : s.nonImportItems = s2.nonImportItems := by
    unfold SectionImpl.nonImportItems
    rw [hs, hs2]
    simp [List.filter_append, List.filter_cons, isImportItem]
  have ho : s.options = s2.options := by rw [hs, hs2]
  obtain ⟨_, htr, _, _⟩ := sectionParts_congr ho hni
  have hmid : isImportItem (⟨ItemType.importItem, nm, .str "", some b⟩ : CodeItem) = true := rfl
  have hii : s.importItems =
      l1.filter isImportItem ++
        (⟨ItemType.importItem, nm, .str "", some b⟩ : CodeItem) :: l2.filter isImportItem := by
    unfold SectionImpl.importItems
    rw [hs]
    simp [List.filter_append, List.filter_cons, hmid]
  have hii2 : s2.importItems = l1.filter isImportItem ++ l2.filter isImportItem := by
    unfold SectionImpl.importItems
    rw [hs2]
    simp [List.filter_append]
  have hproc : processImportItem s.trackerOf
      (⟨ItemType.importItem, nm, .str "", some b⟩ : CodeItem) =
      ⟨ItemType.importItem, nm, .str "", some (b.markUsedFromTracker s.trackerOf)⟩ := by
    unfold processImportItem
    simp [hgen]
  have his : s.importStrings = s2.importStrings := by
    unfold SectionImpl.importStrings SectionImpl.filteredImportItems
      SectionImpl.processedImportItems
    rw [hii, hii2, ← htr]
    rw [List.map_append, List.map_cons, List.filter_append, List.filter_cons, hproc]
    simp [List.filterMap_append, (by decide : ((jsTrim "").isEmpty) = true)]
  exact generate_fst_congr rfl ho hni his

def bC8 : ImportsBuilderImpl :=
  ⟨"unused-module", [⟨"UnusedComponent", none, false⟩], none, none, ⟨false, false⟩⟩

/-- Witness for C8 at a concrete section: the unused registry renders empty
and the section output is as if it were absent. -/
theorem c8_witness :
    (bC8.markUsedFromTracker
        (SectionImpl.mk "W8" SectionOptions.default
          ([] ++ ⟨ItemType.importItem, "unused-module", .str "", some bC8⟩ ::
            [⟨ItemType.objectItem, "o", .str "const a = 1;", none⟩])).trackerOf).generate
      = "" ∧
    ((SectionImpl.mk "W8" SectionOptions.default
        ([] ++ ⟨ItemType.importItem, "unused-module", .str "", some bC8⟩ ::
          [⟨ItemType.objectItem, "o", .str "const a = 1;", none⟩])).generate).1 =
      ((SectionImpl.mk "W8" SectionOptions.default
        ([] ++ [⟨ItemType.objectItem, "o", .str "const a = 1;", none⟩])).generate).1 :=
  c8_empty_registry_contributes_nothing []
    [⟨ItemType.objectItem, "o", .str "const a = 1;", none⟩]
    "W8" SectionOptions.default "unused-module" bC8 rfl (by decide) (by decide) (by decide)

/-- **C1** (amended): a section's output is fully determined by its
non-import item list and its import item list — moving an import item around
relative to the other items changes nothing (all non-import items are
scanned into the section tracker before any import is reconciled and
rendered); and an import whose *reconciliation name* (the source name — for
an unaliased named binding this is also its local name) is reported used by
the section's tracker is included in the section's rendered output,
regardless of where the import item sits among the items. -/
theorem c1_scan_precedes_reconciliation :
    (∀ s₁ s₂ : SectionImpl,
      s₁.name = s₂.name → s₁.options = s₂.options →
      s₁.nonImportItems = s₂.nonImportItems → s₁.importItems = s₂.importItems →
      (s₁.generate).1 = (s₂.generate).1) ∧
    (∀ (s : SectionImpl) (it : CodeItem) (b : ImportsBuilderImpl)
        (imp : NamedImportDefinition),
      it ∈ s.items → isImportItem it = true → it.importsBuilder = some b →
      b.namespaceImport = none → imp ∈ b.namedImports → imp.aliasName = none →
      (s.trackerOf).isUsed imp.name = true →
      strContains (s.generate).1 imp.name = true) := by
  constructor
  · intro s₁ s₂ hn ho hni hii
    exact generate_fst_congr hn ho hni (importStrings_congr ho hni hii)
  · intro s it b imp hmem hty hb hns hbi halias hused
    have h1 : ({ imp with used := true }) ∈
        (b.markUsedFromTracker s.trackerOf).namedImports :=
      mem_markUsedFromTracker_of_isUsed hbi hused
    have h2 : ({ imp with used := true }) ∈
        (b.markUsedFromTracker s.trackerOf).filteredNamedImports :=
      mem_filteredNamedImports_of_used h1 rfl
    have hns2 : (b.markUsedFromTracker s.trackerOf).namespaceImport = none := by
      unfold ImportsBuilderImpl.markUsedFromTracker
      simp [hns]
    obtain ⟨hcont, htrim⟩ := generate_contains_of_mem_filtered h2 hns2
    have hmemIS := mem_importStrings_of_item hmem hty hb htrim
    have hcont2 : strContains ((b.markUsedFromTracker s.trackerOf).generate) imp.name
        = true := by
      simpa [halias] using hcont
    exact strContains_generate_of_mem_importStrings hmemIS hcont2

def bC1 : ImportsBuilderImpl :=
  ⟨"./types", [⟨"Foo", some "Bar", false⟩], none, none, ⟨false, false⟩⟩

def sC1 : SectionImpl :=
  ⟨"C", SectionOptions.default,
    [⟨ItemType.importItem, "./types", .str "", some bC1⟩,
     ⟨ItemType.typeItem, "X", .str "type X = Bar;", none⟩]⟩

/-- **C1 counterexample**: the import `Foo as Bar` has local name `Bar`,
which appears in (and is scanned from) the section's non-import item, yet
the section output contains no import statement at all — reconciliation
looks up the source name `Foo`, so the claim fails for aliased imports. -/
theorem c1_counterexample :
    (sC1.trackerOf).isUsed "Bar" = true ∧
    strContains (sC1.generate).1 "import" = false := by
  decide

def bW1 : ImportsBuilderImpl :=
  ⟨"./types", [⟨"Foo", none, false⟩], none, none, ⟨false, false⟩⟩

def itW1 : CodeItem := ⟨ItemType.importItem, "./types", .str "", some bW1⟩

def itW1ty : CodeItem := ⟨ItemType.typeItem, "X", .str "type X = Foo;", none⟩

def sW1 : SectionImpl := ⟨"W", SectionOptions.default, [itW1, itW1ty]⟩

def sW1b : SectionImpl := ⟨"W", SectionOptions.default, [itW1ty, itW1]⟩

/-- Witness for C1: the import declared before or after the referencing item
yields identical output, and the referenced unaliased import is included. -/
theorem c1_witness :
    (sW1.generate).1 = (sW1b.generate).1 ∧
    strContains (sW1.generate).1 "Foo" = true :=
  ⟨c1_scan_precedes_reconciliation.1 sW1 sW1b rfl rfl (by decide) (by decide),
   c1_scan_precedes_reconciliation.2 sW1 itW1 bW1 ⟨"Foo", none, false⟩
     (by decide) rfl rfl rfl (by decide) rfl (by decide)⟩

theorem append_nl_isEmpty_false (a b : String) : (a ++ "\n\n" ++ b).isEmpty = false := by
  cases h : (a ++ "\n\n" ++ b).isEmpty with
  | false => rfl
  | true =>
    exfalso
    have he := (String.isEmpty_iff _).mp h
    have hd : (a ++ "\n\n" ++ b).data = [] := congrArg String.data he
    rw [String.data_append, String.data_append] at hd
    rcases List.append_eq_nil.mp hd with ⟨hd1, -⟩
    rcases List.append_eq_nil.mp hd1 with ⟨-, hd2⟩
    cases hd2

/-- **C7**: for two generators that differ only in the second section, the
rendered output opens with the document header followed by the first
section's full output (its import lines included) in both runs, and the
first section's post-generation state (which imports got marked used) is
identical in both runs — each section's `generate()` builds its own fresh
tracker, so section B's identifiers cannot affect section A's imports. -/
theorem c7_no_cross_section_leakage :
    ∀ (a b b2 : SectionImpl) (m : List (String × String)),
      m.isEmpty = false →
      a.options.order = some 0 → b.options.order = some 1 → b2.options.order = some 1 →
      ((GeneratorImpl.mk [a, b] m).generate).1 =
        generatorHeaderText ++ ((a.generate).1 ++ "\n\n" ++ (b.generate).1) ∧
      ((GeneratorImpl.mk [a, b2] m).generate).1 =
        generatorHeaderText ++ ((a.generate).1 ++ "\n\n" ++ (b2.generate).1) ∧
      ((GeneratorImpl.mk [a, b] m).generate).2.sections.head? =
        ((GeneratorImpl.mk [a, b2] m).generate).2.sections.head? := by
  intro a b b2 m hm ha hb hb2
  have hsortAB : ∀ c : SectionImpl, c.options.order = some 1 →
      sortSectionsByOrder [a, c] = [a, c] := by
    intro c hc
    unfold sortSectionsByOrder sortSectionsByOrder sortSectionsByOrder
    unfold insertByOrder insertByOrder
    simp [orderKey, ha, hc]
  have hout : ∀ c : SectionImpl, c.options.order = some 1 →
      ((GeneratorImpl.mk [a, c] m).generate).1 =
        generatorHeaderText ++ ((a.generate).1 ++ "\n\n" ++ (c.generate).1) := by
    intro c hc
    unfold GeneratorImpl.generate
    rw [show (GeneratorImpl.mk [a, c] m).sections = [a, c] from rfl, hsortAB c hc]
    have hcomb : joinSep "\n\n" ([a, c].map (fun s => (s.generate).1)) =
        (a.generate).1 ++ "\n\n" ++ (c.generate).1 := by
      simp [joinSep]
    dsimp only
    rw [hcomb]
    rw [hm, append_nl_isEmpty_false]
    simp
  refine ⟨hout b hb, hout b2 hb2, ?_⟩
  unfold GeneratorImpl.generate
  simp

def sC7a : SectionImpl :=
  ⟨"A", ⟨none, none, false, some 0⟩,
    [⟨ItemType.importItem, "./types", .str "", some bW1⟩,
     ⟨ItemType.typeItem, "X", .str "type X = Foo;", none⟩]⟩

def sC7b : SectionImpl :=
  ⟨"B", ⟨none, none, false, some 1⟩,
    [⟨ItemType.typeItem, "Y", .str "type Y = Bar;", none⟩]⟩

def sC7b2 : SectionImpl :=
  ⟨"B", ⟨none, none, false, some 1⟩,
    [⟨ItemType.typeItem, "Y", .str "type Y = Baz;", none⟩]⟩

/-- Witness for C7 at concrete sections differing only in section B. -/
theorem c7_witness :
    ((GeneratorImpl.mk [sC7a, sC7b] [("generator", "g")]).generate).1 =
      generatorHeaderText ++ ((sC7a.generate).1 ++ "\n\n" ++ (sC7b.generate).1) ∧
    ((GeneratorImpl.mk [sC7a, sC7b2] [("generator", "g")]).generate).1 =
      generatorHeaderText ++ ((sC7a.generate).1 ++ "\n\n" ++ (sC7b2.generate).1) ∧
    ((GeneratorImpl.mk [sC7a, sC7b] [("generator", "g")]).generate).2.sections.head? =
      ((GeneratorImpl.mk [sC7a, sC7b2] [("generator", "g")]).generate).2.sections.head? :=
  c7_no_cross_section_leakage sC7a sC7b sC7b2 [("generator", "g")] rfl rfl rfl rfl

def sC3 : SectionImpl :=
  ⟨"S", SectionOptions.default,
    [⟨ItemType.interfaceItem, "Foo", .node ⟨"interface Foo \x7b\n\x7d", []⟩, none⟩]⟩

def gC3 : GeneratorImpl := ⟨[sC3], [("generator", "ts-generator-builder")]⟩

/-- **C3** (code bug): calling the top-level `generate()` twice on an
unmodified generator is *not* idempotent — the first call appends the
section's JSDoc comment to the stored AST node's synthetic leading comments,
so the second call's output carries the section comment twice. -/
theorem c3_idempotence_fails :
    (gC3.generate).1 =
      "/** Generated TypeScript code */\n/** S */\ninterface Foo \x7b\n\x7d\n\n// End S\n" ∧
    (((gC3.generate).2).generate).1 =
      "/** Generated TypeScript code */\n/** S */\n/** S */\ninterface Foo \x7b\n\x7d\n\n// End S\n" ∧
    (((gC3.generate).2).generate).1 ≠ (gC3.generate).1 := by
  decide

